import Mathlib

/-!  A shallow embedding of the escrow pallet of `hmt-substrate`
(`src/pallets/escrow/src/lib.rs`), with theorems checking the pallet's
natural-language specification against the code.

The pallet's storage (counter, escrow map, factory index, trusted-handler
double map, handler counts, result pointers) together with the balances of
the external ledger (`pallet_balances` as instantiated by the repository's
mock runtime: `ExistentialDeposit = 0`, no locks) is collected in one
`State` record.  Every dispatchable is a pure function from the call's
arguments and the pre-state to a `DispatchResult` and post-state.  Dispatch
in FRAME 2.0 is *not* transactional: a dispatchable that fails keeps any
storage writes it already performed, so each function below mutates the
state step by step exactly in the order of the Rust code; only
`bulk_payout` is wrapped in `with_transaction_result`, which commits on
success and restores the pre-call state on error.

Machine integers: balances are `Nat` with the saturating operations made
explicit against the balance type's maximum (`maxBalance` in `Config`);
`u32` quantities saturate at `2^32 - 1`; `Percent` values are their
`deconstruct()`ed `Nat` contents. -/

namespace HmtEscrow

/-- Escrow ids (`pub type EscrowId = u128`). -/
abbrev EscrowId := Nat

/-- Factory ids (`pub type FactoryId = u128`). -/
abbrev FactoryId := Nat

/-- Account identifiers.  `user n` is an ordinary signer account;
`escrowAccount id` is the custodial sub-account that `account_id_for`
derives for escrow `id` via `MODULE_ID.into_sub_account(id)`.  The
byte-level derivation and its injectivity are modelled separately below
(`accountIdForBytes`); here the derived accounts form their own constructor,
mirroring that the `"modl" ++ "escrowhp"`-prefixed sub-accounts are disjoint
from ordinary accounts. -/
inductive AccountId where
  | user : Nat → AccountId
  | escrowAccount : EscrowId → AccountId
deriving DecidableEq, Repr

/-- `enum EscrowStatus` with its five states. -/
inductive EscrowStatus where
  | Pending
  | Partial
  | Paid
  | Complete
  | Cancelled
deriving DecidableEq, Repr

/-- `struct EscrowInfo<Moment, AccountId>`; byte strings are byte lists,
`Percent` fields are their `Nat` contents. -/
structure EscrowInfo where
  status : EscrowStatus
  endTime : Nat
  manifestUrl : List Nat
  manifestHash : List Nat
  reputationOracle : AccountId
  recordingOracle : AccountId
  reputationOracleStake : Nat
  recordingOracleStake : Nat
  canceller : AccountId
  account : AccountId
  factory : FactoryId
deriving DecidableEq, Repr

/-- `struct ResultInfo`. -/
structure ResultInfo where
  resultsUrl : List Nat
  resultsHash : List Nat
deriving DecidableEq, Repr

/-- The pallet's `Trait` configuration constants, plus the saturation bound
of the balance type (`Balance::max_value()`; `u64::MAX` in the repository's
mock runtime). -/
structure Config where
  standardDuration : Nat
  stringLimit : Nat
  bulkBalanceLimit : Nat
  bulkAccountsLimit : Nat
  handlersLimit : Nat
  maxBalance : Nat
deriving Repr

/-- `MAX_ESCROWS_PER_FACTORY`. -/
def MAX_ESCROWS_PER_FACTORY : Nat := 20

/-- `u32::MAX`, the saturation bound for handler counts. -/
def U32MAX : Nat := 2 ^ 32 - 1

/-- The pallet's `Error` enum, extended with the two errors the external
ledger (`pallet_balances::transfer`) can raise during an escrow operation. -/
inductive Err where
  | StakeOutOfBounds
  | Overflow
  | MissingEscrow
  | NonTrustedAccount
  | OutOfFunds
  | EscrowExpired
  | EscrowNotPaid
  | EscrowClosed
  | MismatchBulkTransfer
  | TooManyTos
  | TransferTooBig
  | StringSize
  | TooManyHandlers
  | FactoryOutOfBounds
  | FactoryDoesNotExist
  | InsufficientBalance
  | LedgerOverflow
deriving DecidableEq, Repr

abbrev DispatchResult := Except Err Unit

/-- The pallet's storage together with the ledger's account balances. -/
structure State where
  counter : Nat
  factoryCounter : Nat
  escrows : EscrowId → Option EscrowInfo
  escrowFactory : FactoryId → Option (List EscrowId)
  finalResults : EscrowId → Option ResultInfo
  trustedHandlers : EscrowId → AccountId → Bool
  handlersCount : EscrowId → Nat
  balances : AccountId → Nat

/-- Point update of a total map (storage `insert` / `remove`). -/
def mapInsert {α β : Type} [DecidableEq α] (f : α → β) (k : α) (v : β) : α → β :=
  fun x => if x = k then v else f x

/-- `Percent::mul_floor` on a non-negative integer: `⌊p * a / 100⌋`. -/
def mulFloor (p a : Nat) : Nat := p * a / 100

/-- Saturating addition of balances (`saturating_add`), clamping at the
balance type's maximum `m`.  Saturating subtraction is `Nat.sub`. -/
def satAdd (m a b : Nat) : Nat := min (a + b) m

/-- The running saturating sum `sum = sum.saturating_add(*a)` over a list,
starting from zero. -/
def satSum (m : Nat) (l : List Nat) : Nat := l.foldl (satAdd m) 0

/-- `account_id_for`: the custodial account of an escrow id. -/
def accountIdFor (id : EscrowId) : AccountId := AccountId.escrowAccount id

/-- `Currency::transfer` of `pallet_balances` 2.0 as configured by the
repository's mock runtime (`ExistentialDeposit = 0`, no locks, existence
requirement `AllowDeath`): a transfer of zero value or from an account to
itself returns `Ok` without touching balances; otherwise the source must
hold the value (`InsufficientBalance`) and the destination's new balance is
obtained by `checked_add` (`LedgerOverflow` above the balance maximum). -/
def transfer (cfg : Config) (source dest : AccountId) (v : Nat) (s : State) :
    Except Err State :=
  if v = 0 ∨ source = dest then .ok s
  else if s.balances source < v then .error .InsufficientBalance
  else if cfg.maxBalance < s.balances dest + v then .error .LedgerOverflow
  else .ok { s with balances :=
    (fun a =>
      if a = source then s.balances source - v
      else if a = dest then s.balances dest + v
      else s.balances a) }

/-- `ensure_trusted` (the origin is modelled as the signing account). -/
def ensureTrusted (s : State) (who : AccountId) (id : EscrowId) :
    Except Err AccountId :=
  if s.trustedHandlers id who then .ok who else .error .NonTrustedAccount

/-- `do_add_trusted_handlers`: insert `true` for each listed account. -/
def doAddTrustedHandlers (id : EscrowId) (trusted : List AccountId)
    (th : EscrowId → AccountId → Bool) : EscrowId → AccountId → Bool :=
  trusted.foldl (fun th t => fun i a => if i = id ∧ a = t then true else th i a) th

/-- `get_balance`: free balance of the escrow's custodial account. -/
def getBalance (s : State) (escrow : EscrowInfo) : Nat :=
  s.balances escrow.account

/-- `get_open_escrow`: the escrow must exist, be unexpired, and have
`Pending` or `Partial` status. -/
def getOpenEscrow (now : Nat) (id : EscrowId) (s : State) :
    Except Err EscrowInfo :=
  match s.escrows id with
  | none => .error .MissingEscrow
  | some escrow =>
    if ¬ now < escrow.endTime then .error .EscrowExpired
    else if escrow.status = .Pending ∨ escrow.status = .Partial then .ok escrow
    else .error .EscrowClosed

/-- The per-amount body of the `finalize_payouts` iteration: floor oracle
fees, saturating net remainder, fee totals accumulated with
`saturating_add`. -/
def payoutStep (cfg : Config) (escrow : EscrowInfo) (acc : Nat × Nat × List Nat)
    (amount : Nat) : Nat × Nat × List Nat :=
  let reputationFee := mulFloor escrow.reputationOracleStake amount
  let recordingFee := mulFloor escrow.recordingOracleStake amount
  let amountWithoutFee := amount - reputationFee - recordingFee
  (satAdd cfg.maxBalance acc.1 reputationFee,
   satAdd cfg.maxBalance acc.2.1 recordingFee,
   acc.2.2 ++ [amountWithoutFee])

/-- `finalize_payouts`: returns the two oracle fee totals and the list of
net amounts. -/
def finalizePayouts (cfg : Config) (escrow : EscrowInfo) (amounts : List Nat) :
    Nat × Nat × List Nat :=
  amounts.foldl (payoutStep cfg escrow) (0, 0, [])

/-- The transfer loop of `do_transfer_bulk`, aborting at the first failing
transfer (earlier transfers keep their effect inside the running scope). -/
def transferSeq (cfg : Config) (source : AccountId) :
    List (AccountId × Nat) → State → Except Err State
  | [], s => .ok s
  | (dst, v) :: rest, s =>
    match transfer cfg source dst v s with
    | .error e => .error e
    | .ok s' => transferSeq cfg source rest s'

/-- `do_transfer_bulk`. -/
def doTransferBulk (cfg : Config) (source : AccountId) (tos : List AccountId)
    (values : List Nat) (s : State) : Except Err State :=
  if ¬ tos.length ≤ cfg.bulkAccountsLimit then .error .TooManyTos
  else if ¬ tos.length = values.length then .error .MismatchBulkTransfer
  else if ¬ satSum cfg.maxBalance values ≤ cfg.bulkBalanceLimit then .error .TransferTooBig
  else transferSeq cfg source (tos.zip values) s

/-- `slice::binary_search` bisection on `[lo, hi)`.  The interval length
`hi - lo` strictly decreases on every recursive call, so structural
recursion on a fuel of at least `hi - lo + 1` computes the loop exactly. -/
def binSearchAux (xs : List Nat) (t : Nat) : Nat → Nat → Nat → Option Nat
  | 0, _, _ => none
  | fuel + 1, lo, hi =>
    if lo < hi then
      let mid := (lo + hi) / 2
      let x := (xs.get? mid).getD 0
      if x < t then binSearchAux xs t fuel (mid + 1) hi
      else if t < x then binSearchAux xs t fuel lo mid
      else some mid
    else none

/-- `slice::binary_search`: index of a matching element, or `none`. -/
def binSearch (xs : List Nat) (t : Nat) : Option Nat :=
  binSearchAux xs t (xs.length + 1) 0 xs.length

/-- `with_transaction_result`: run `f` on `s`, commit the new state on
success, and restore the pre-call state on error. -/
def withTransactionResult (s : State) (f : State → Except Err State) :
    DispatchResult × State :=
  match f s with
  | .ok s' => (.ok (), s')
  | .error e => (.error e, s)

/-- The `create_factory` dispatchable. -/
def createFactory (who : AccountId) (s : State) : DispatchResult × State :=
  let _ := who
  let id := s.factoryCounter
  (.ok (), { s with
    factoryCounter := id + 1,
    escrowFactory := mapInsert s.escrowFactory id (some []) })

/-- The `create` dispatchable. -/
def create (cfg : Config) (now : Nat) (who : AccountId)
    (manifestUrl manifestHash : List Nat) (factoryId : FactoryId)
    (reputationOracle recordingOracle : AccountId)
    (reputationOracleStake recordingOracleStake : Nat) (s : State) :
    DispatchResult × State :=
  if ¬ manifestUrl.length ≤ cfg.stringLimit then (.error .StringSize, s)
  else if ¬ manifestHash.length ≤ cfg.stringLimit then (.error .StringSize, s)
  else match s.escrowFactory factoryId with
  | none => (.error .FactoryDoesNotExist, s)
  | some factoryEscrows =>
    if ¬ factoryEscrows.length ≤ MAX_ESCROWS_PER_FACTORY then (.error .FactoryOutOfBounds, s)
    else
      -- `u8` saturating addition of the two `deconstruct()`ed stakes
      let totalStake := min (reputationOracleStake + recordingOracleStake) 255
      if ¬ totalStake ≤ 100 then (.error .StakeOutOfBounds, s)
      else
        let endTime := now + cfg.standardDuration
        let id := s.counter
        let trusted := [recordingOracle, reputationOracle, who]
        let account := accountIdFor id
        let newEscrow : EscrowInfo := {
          status := .Pending
          endTime := endTime
          manifestUrl := manifestUrl
          manifestHash := manifestHash
          reputationOracle := reputationOracle
          recordingOracle := recordingOracle
          reputationOracleStake := reputationOracleStake
          recordingOracleStake := recordingOracleStake
          canceller := who
          account := account
          factory := factoryId }
        (.ok (), { s with
          counter := id + 1,
          handlersCount := mapInsert s.handlersCount id 3,
          trustedHandlers := doAddTrustedHandlers id trusted s.trustedHandlers,
          escrows := mapInsert s.escrows id (some newEscrow),
          escrowFactory := mapInsert s.escrowFactory factoryId (some (factoryEscrows ++ [id])) })

/-- The `add_trusted_handlers` dispatchable.  Note that `new_count` adds the
full length of `handlers` (cast to `u32`, saturating) to the stored count,
whether or not the accounts were already trusted. -/
def addTrustedHandlers (cfg : Config) (who : AccountId) (id : EscrowId)
    (handlers : List AccountId) (s : State) : DispatchResult × State :=
  match ensureTrusted s who id with
  | .error e => (.error e, s)
  | .ok _ =>
    let count := s.handlersCount id
    let newCount := min (count + handlers.length % 2 ^ 32) U32MAX
    if ¬ newCount ≤ cfg.handlersLimit then (.error .TooManyHandlers, s)
    else
      (.ok (), { s with
        trustedHandlers := doAddTrustedHandlers id handlers s.trustedHandlers,
        handlersCount := mapInsert s.handlersCount id newCount })

/-- The `abort` dispatchable.  FRAME 2.0 dispatch is not transactional, so
the storage removals persist even if the subsequent factory-index lookup
fails with `MissingEscrow`. -/
def abort (cfg : Config) (who : AccountId) (id : EscrowId) (s : State) :
    DispatchResult × State :=
  match s.escrows id with
  | none => (.error .MissingEscrow, s)
  | some escrow =>
    match ensureTrusted s who id with
    | .error e => (.error e, s)
    | .ok _ =>
      if escrow.status = .Complete ∨ escrow.status = .Paid then (.error .EscrowClosed, s)
      else
        let balance := s.balances escrow.account
        match (if 0 < balance then transfer cfg escrow.account escrow.canceller balance s
               else .ok s) with
        | .error e => (.error e, s)
        | .ok s₁ =>
          let s₂ : State := { s₁ with
            escrows := mapInsert s₁.escrows id none,
            finalResults := mapInsert s₁.finalResults id none,
            trustedHandlers := fun i a => if i = id then false else s₁.trustedHandlers i a,
            handlersCount := mapInsert s₁.handlersCount id 0 }
          let escrowsOfFactory := (s₂.escrowFactory escrow.factory).getD []
          let s₃ : State := { s₂ with
            escrowFactory := mapInsert s₂.escrowFactory escrow.factory none }
          match binSearch escrowsOfFactory id with
          | none => (.error .MissingEscrow, s₃)
          | some index =>
            (.ok (), { s₃ with escrowFactory :=
              (mapInsert s₃.escrowFactory escrow.factory
                (some (escrowsOfFactory.eraseIdx index))) })

/-- The `cancel` dispatchable. -/
def cancel (cfg : Config) (who : AccountId) (id : EscrowId) (s : State) :
    DispatchResult × State :=
  match s.escrows id with
  | none => (.error .MissingEscrow, s)
  | some escrow =>
    match ensureTrusted s who id with
    | .error e => (.error e, s)
    | .ok _ =>
      if escrow.status = .Pending ∨ escrow.status = .Partial then
        let balance := s.balances escrow.account
        if ¬ 0 < balance then (.error .OutOfFunds, s)
        else match transfer cfg escrow.account escrow.canceller balance s with
        | .error e => (.error e, s)
        | .ok s₁ =>
          (.ok (), { s₁ with
            escrows := mapInsert s₁.escrows id (some { escrow with status := .Cancelled }) })
      else (.error .EscrowClosed, s)

/-- The `complete` dispatchable. -/
def complete (now : Nat) (who : AccountId) (id : EscrowId) (s : State) :
    DispatchResult × State :=
  match s.escrows id with
  | none => (.error .MissingEscrow, s)
  | some escrow =>
    match ensureTrusted s who id with
    | .error e => (.error e, s)
    | .ok _ =>
      if ¬ now < escrow.endTime then (.error .EscrowExpired, s)
      else if ¬ escrow.status = .Paid then (.error .EscrowNotPaid, s)
      else
        (.ok (), { s with
          escrows := mapInsert s.escrows id (some { escrow with status := .Complete }) })

/-- The `note_intermediate_results` dispatchable (results are only emitted
as an event, so success leaves the state unchanged). -/
def noteIntermediateResults (cfg : Config) (now : Nat) (who : AccountId)
    (id : EscrowId) (url hash : List Nat) (s : State) : DispatchResult × State :=
  if ¬ url.length ≤ cfg.stringLimit then (.error .StringSize, s)
  else if ¬ hash.length ≤ cfg.stringLimit then (.error .StringSize, s)
  else match ensureTrusted s who id with
  | .error e => (.error e, s)
  | .ok _ =>
    match getOpenEscrow now id s with
    | .error e => (.error e, s)
    | .ok _ => (.ok (), s)

/-- The `store_final_results` dispatchable. -/
def storeFinalResults (cfg : Config) (now : Nat) (who : AccountId)
    (id : EscrowId) (url hash : List Nat) (s : State) : DispatchResult × State :=
  if ¬ url.length ≤ cfg.stringLimit then (.error .StringSize, s)
  else if ¬ hash.length ≤ cfg.stringLimit then (.error .StringSize, s)
  else match ensureTrusted s who id with
  | .error e => (.error e, s)
  | .ok _ =>
    match getOpenEscrow now id s with
    | .error e => (.error e, s)
    | .ok _ =>
      (.ok (), { s with
        finalResults := mapInsert s.finalResults id
          (some { resultsUrl := url, resultsHash := hash }) })

/-- The body of `bulk_payout`, before transactional wrapping: load the open
escrow, check trust and funds, compute the fee split, transfer both oracle
fees, bulk-transfer the net amounts, then advance the status. -/
def bulkPayoutInner (cfg : Config) (now : Nat) (who : AccountId) (id : EscrowId)
    (recipients : List AccountId) (amounts : List Nat) (s : State) :
    Except Err State :=
  match getOpenEscrow now id s with
  | .error e => .error e
  | .ok escrow =>
    match ensureTrusted s who id with
    | .error e => .error e
    | .ok _ =>
      let balance := s.balances escrow.account
      if ¬ 0 < balance then .error .OutOfFunds
      else if balance < satSum cfg.maxBalance amounts then .error .OutOfFunds
      else
        let fees := finalizePayouts cfg escrow amounts
        match transfer cfg escrow.account escrow.reputationOracle fees.1 s with
        | .error e => .error e
        | .ok s₁ =>
          match transfer cfg escrow.account escrow.recordingOracle fees.2.1 s₁ with
          | .error e => .error e
          | .ok s₂ =>
            match doTransferBulk cfg escrow.account recipients fees.2.2 s₂ with
            | .error e => .error e
            | .ok s₃ =>
              let balanceAfter := s₃.balances escrow.account
              let status₁ : EscrowStatus :=
                if escrow.status = .Pending then .Partial else escrow.status
              let status₂ : EscrowStatus :=
                if balanceAfter = 0 ∧ status₁ = .Partial then .Paid else status₁
              .ok { s₃ with escrows :=
                (mapInsert s₃.escrows id (some { escrow with status := status₂ })) }

/-- The `bulk_payout` dispatchable: `bulkPayoutInner` inside
`with_transaction_result`. -/
def bulkPayout (cfg : Config) (now : Nat) (who : AccountId) (id : EscrowId)
    (recipients : List AccountId) (amounts : List Nat) (s : State) :
    DispatchResult × State :=
  withTransactionResult s (bulkPayoutInner cfg now who id recipients amounts)

/-- The pallet's command surface (plus a plain ledger transfer, through
which escrow accounts are funded). -/
inductive Op where
  | createFactory (who : AccountId)
  | create (who : AccountId) (manifestUrl manifestHash : List Nat)
      (factoryId : FactoryId) (reputationOracle recordingOracle : AccountId)
      (reputationOracleStake recordingOracleStake : Nat)
  | addTrustedHandlers (who : AccountId) (id : EscrowId) (handlers : List AccountId)
  | abort (who : AccountId) (id : EscrowId)
  | cancel (who : AccountId) (id : EscrowId)
  | complete (who : AccountId) (id : EscrowId)
  | noteIntermediateResults (who : AccountId) (id : EscrowId) (url hash : List Nat)
  | storeFinalResults (who : AccountId) (id : EscrowId) (url hash : List Nat)
  | bulkPayout (who : AccountId) (id : EscrowId)
      (recipients : List AccountId) (amounts : List Nat)
  | ledgerTransfer (who dest : AccountId) (v : Nat)

/-- One dispatch step at timestamp `now`. -/
def applyOp (cfg : Config) (now : Nat) (op : Op) (s : State) :
    DispatchResult × State :=
  match op with
  | .createFactory who => createFactory who s
  | .create who url hash fid repO recO repS recS =>
    create cfg now who url hash fid repO recO repS recS s
  | .addTrustedHandlers who id handlers => addTrustedHandlers cfg who id handlers s
  | .abort who id => abort cfg who id s
  | .cancel who id => cancel cfg who id s
  | .complete who id => complete now who id s
  | .noteIntermediateResults who id url hash =>
    noteIntermediateResults cfg now who id url hash s
  | .storeFinalResults who id url hash => storeFinalResults cfg now who id url hash s
  | .bulkPayout who id recipients amounts =>
    bulkPayout cfg now who id recipients amounts s
  | .ledgerTransfer who dest v =>
    match transfer cfg who dest v s with
    | .ok s' => (.ok (), s')
    | .error e => (.error e, s)

/-- Genesis: empty pallet storage, arbitrary initial ledger balances. -/
def genesisState (balances : AccountId → Nat) : State := {
  counter := 0
  factoryCounter := 0
  escrows := fun _ => none
  escrowFactory := fun _ => none
  finalResults := fun _ => none
  trustedHandlers := fun _ _ => false
  handlersCount := fun _ => 0
  balances := balances }

/-- States reachable from genesis by dispatching operations (the timestamp
may move arbitrarily between calls). -/
inductive Reachable (cfg : Config) : State → Prop where
  | genesis : ∀ balances, Reachable cfg (genesisState balances)
  | step : ∀ {s} (now : Nat) (op : Op), Reachable cfg s →
      Reachable cfg (applyOp cfg now op s).2

/-- Forward reachability along the status transition graph documented on
`EscrowStatus` (the reflexive-transitive closure of
`Pending → Partial → Paid → Complete` and `Pending/Partial → Cancelled`). -/
def statusLe : EscrowStatus → EscrowStatus → Bool
  | .Pending, _ => true
  | .Partial, .Pending => false
  | .Partial, _ => true
  | .Paid, .Paid => true
  | .Paid, .Complete => true
  | .Paid, _ => false
  | .Complete, .Complete => true
  | .Complete, _ => false
  | .Cancelled, .Cancelled => true
  | .Cancelled, _ => false

/-- Inductive invariant of the pallet: ids at or above the counter have no
stored record, and ids without a stored record have no trusted handlers. -/
def StateInv (s : State) : Prop :=
  (∀ id, s.counter ≤ id → s.escrows id = none) ∧
  (∀ id a, s.escrows id = none → s.trustedHandlers id a = false)

/-- One dispatch step never moves any stored escrow's status backward:
whenever an id holds a record before and after, the statuses are related by
the forward order `statusLe`. -/
def StepStatusOk (s s' : State) : Prop :=
  ∀ id e e', s.escrows id = some e → s'.escrows id = some e' →
    statusLe e.status e'.status = true

/-- `s'` has the same pallet storage as `s` (they may differ only in the
ledger balances). -/
def SameStorage (s s' : State) : Prop :=
  s'.counter = s.counter ∧ s'.factoryCounter = s.factoryCounter ∧
  s'.escrows = s.escrows ∧ s'.escrowFactory = s.escrowFactory ∧
  s'.finalResults = s.finalResults ∧ s'.trustedHandlers = s.trustedHandlers ∧
  s'.handlersCount = s.handlersCount

/-- Fixed-width little-endian byte encoding of a natural number (the SCALE
encoding of an unsigned fixed-width integer, `k` bytes). -/
def encLE : Nat → Nat → List Nat
  | 0, _ => []
  | k + 1, n => n % 256 :: encLE k (n / 256)

/-- Little-endian byte decoding, inverse of `encLE`. -/
def decLE : List Nat → Nat
  | [] => 0
  | b :: bs => b + 256 * decLE bs

/-- Modelled from the spec: the runtime's concrete `AccountId`
instantiation is not under `src/` (only the runtime's weight files are).
The spec describes the custodial account as "deterministically derived from
the escrow id (never reused across ids)"; the derivation in
`account_id_for` is `ModuleId(*b"escrowhp").into_sub_account(id)`, i.e. the
SCALE bytes `b"modl" ++ b"escrowhp" ++ (id as u128, little endian)` decoded
into the account id type with trailing zeros, which for the standard
32-byte account id yields these bytes. -/
def accountIdForBytes (id : EscrowId) : List Nat :=
  ((([109, 111, 100, 108] ++ [101, 115, 99, 114, 111, 119, 104, 112])
    ++ encLE 16 id) ++ List.replicate 32 0).take 32

/-- The configuration constants of the repository's mock runtime
(`Balance = u64`; the handlers limit, absent from the mock, is set to 10). -/
def cfgMock : Config := {
  standardDuration := 1000
  stringLimit := 10
  bulkBalanceLimit := 999
  bulkAccountsLimit := 10
  handlersLimit := 10
  maxBalance := 2 ^ 64 - 1 }

/-- Genesis balances of the mock runtime: account 1 holds 1000 units. -/
def genesisBalancesA : AccountId → Nat :=
  fun a => if a = .user 1 then 1000 else 0

/-- Scenario start: genesis, then `create_factory` by account 1. -/
def stateA1 : State := (createFactory (.user 1) (genesisState genesisBalancesA)).2

/-- Scenario: account 1 creates escrow 0 in factory 0 with oracles 3 and 4,
both stakes 10 percent. -/
def stateA2 : State :=
  (create cfgMock 0 (.user 1) [1] [2] 0 (.user 3) (.user 4) 10 10 stateA1).2

/-- Scenario: account 1 funds the custodial account of escrow 0 with 100
units. -/
def stateA3 : State :=
  (applyOp cfgMock 0 (.ledgerTransfer (.user 1) (accountIdFor 0) 100) stateA2).2

/-- The escrow record stored at id 0 in `stateA2` and `stateA3`. -/
def escrowA : EscrowInfo := {
  status := .Pending
  endTime := 1000
  manifestUrl := [1]
  manifestHash := [2]
  reputationOracle := .user 3
  recordingOracle := .user 4
  reputationOracleStake := 10
  recordingOracleStake := 10
  canceller := .user 1
  account := accountIdFor 0
  factory := 0 }

/-- An escrow record that exercises saturation: both stakes are 50 percent
(sum exactly 100) and both oracles are the custodial account itself. -/
def escrowBig : EscrowInfo := {
  status := .Pending
  endTime := 1000
  manifestUrl := [1]
  manifestHash := [2]
  reputationOracle := accountIdFor 0
  recordingOracle := accountIdFor 0
  reputationOracleStake := 50
  recordingOracleStake := 50
  canceller := .user 1
  account := accountIdFor 0
  factory := 0 }

/-- A state holding `escrowBig` at id 0, its custodial account funded with
the balance maximum, account 1 trusted. -/
def sBig : State := {
  counter := 1
  factoryCounter := 1
  escrows := mapInsert (fun _ => none) 0 (some escrowBig)
  escrowFactory := mapInsert (fun _ => none) 0 (some [0])
  finalResults := fun _ => none
  trustedHandlers := fun i a => if i = 0 ∧ a = .user 1 then true else false
  handlersCount := fun i => if i = 0 then 3 else 0
  balances := fun a => if a = accountIdFor 0 then cfgMock.maxBalance else 0 }

end HmtEscrow

namespace HmtEscrow

/-- C9: `create` whose manifest url (or manifest hash) exceeds the
configured string limit fails with `StringSize` and returns the pre-call
state unchanged: no escrow record is stored, no trusted handlers are
registered, and the id counter keeps its value. -/
theorem create_stringsize_no_mutation (cfg : Config) (now : Nat)
    (who : AccountId) (url hash : List Nat) (fid : FactoryId)
    (repO recO : AccountId) (repS recS : Nat) (s : State)
    (h : cfg.stringLimit < url.length ∨ cfg.stringLimit < hash.length) :
    create cfg now who url hash fid repO recO repS recS s = (.error .StringSize, s) := by
  unfold create
  by_cases hu : url.length ≤ cfg.stringLimit
  · rw [if_neg (by omega)]
    rcases h with h | h
    · omega
    · rw [if_pos (by omega)]
  · rw [if_pos (by omega)]

/-- Witness for C9 at a concrete input: an 11-byte url against the mock's
10-byte limit. -/
theorem create_stringsize_no_mutation_witness :
    (cfgMock.stringLimit < (List.replicate 11 24).length ∨
      cfgMock.stringLimit < ([] : List Nat).length) ∧
    create cfgMock 0 (.user 1) (List.replicate 11 24) [] 0 (.user 3) (.user 4)
      10 10 (genesisState genesisBalancesA) =
      (.error .StringSize, genesisState genesisBalancesA) :=
  ⟨Or.inl (by decide),
   create_stringsize_no_mutation cfgMock 0 (.user 1) (List.replicate 11 24) []
     0 (.user 3) (.user 4) 10 10 (genesisState genesisBalancesA)
     (Or.inl (by decide))⟩

/-- C2: whenever `bulk_payout` fails — for any reason, including a ledger
transfer that fails after the oracle-fee transfers already executed — the
transactional wrapper returns the pre-call state: escrow status, balances,
result pointers and all stored records are unchanged. -/
theorem bulkPayout_failure_rollback (cfg : Config) (now : Nat)
    (who : AccountId) (id : EscrowId) (recipients : List AccountId)
    (amounts : List Nat) (s : State) (e : Err)
    (h : (bulkPayout cfg now who id recipients amounts s).1 = .error e) :
    (bulkPayout cfg now who id recipients amounts s).2 = s := by
  unfold bulkPayout withTransactionResult at h ⊢
  cases hres : bulkPayoutInner cfg now who id recipients amounts s <;>
    simp [hres] at h ⊢

/-- Witness for C2 at a concrete input: a length-mismatched recipient list
is only detected by `do_transfer_bulk`, after both oracle-fee transfers
have executed inside the transactional scope; the call fails with
`MismatchBulkTransfer` and the state is the pre-call state. -/
theorem bulkPayout_failure_rollback_witness :
    (bulkPayout cfgMock 0 (.user 1) 0 [.user 5, .user 6, .user 7] [50, 50]
      stateA3).1 = .error .MismatchBulkTransfer ∧
    (bulkPayout cfgMock 0 (.user 1) 0 [.user 5, .user 6, .user 7] [50, 50]
      stateA3).2 = stateA3 :=
  ⟨rfl,
   bulkPayout_failure_rollback cfgMock 0 (.user 1) 0
     [.user 5, .user 6, .user 7] [50, 50] stateA3 .MismatchBulkTransfer rfl⟩

theorem div_add_div_le_add_div (a b c : Nat) : a / c + b / c ≤ (a + b) / c := by
  rcases Nat.eq_zero_or_pos c with hc | hc
  · subst hc; simp
  · rw [Nat.le_div_iff_mul_le hc, Nat.add_mul]
    exact Nat.add_le_add (Nat.div_mul_le_self a c) (Nat.div_mul_le_self b c)

/-- Two floor fees with stakes summing to at most 100 percent never exceed
the amount. -/
theorem mulFloor_add_le (p q a : Nat) (h : p + q ≤ 100) :
    mulFloor p a + mulFloor q a ≤ a := by
  unfold mulFloor
  calc p * a / 100 + q * a / 100 ≤ (p * a + q * a) / 100 :=
        div_add_div_le_add_div (p * a) (q * a) 100
    _ ≤ 100 * a / 100 := by
        apply Nat.div_le_div_right
        rw [← Nat.add_mul]
        exact Nat.mul_le_mul_right a h
    _ = a := Nat.mul_div_cancel_left a (by omega)

/-- A floor fee with stake at most 100 percent never exceeds the amount. -/
theorem mulFloor_le (p a : Nat) (h : p ≤ 100) : mulFloor p a ≤ a := by
  have := mulFloor_add_le p 0 a (by omega)
  omega

theorem sum_map_le_sum (f : Nat → Nat) (l : List Nat) (h : ∀ a ∈ l, f a ≤ a) :
    (l.map f).sum ≤ l.sum := by
  induction l with
  | nil => simp
  | cons a l ih =>
    simp only [List.map_cons, List.sum_cons]
    have h1 := h a (by simp)
    have h2 := ih (fun b hb => h b (by simp [hb]))
    omega

/-- Exact per-entry conservation, summed: with stakes summing to at most
100 percent, fees plus nets equal the requested amounts. -/
theorem conservation_sum (p q : Nat) (hpq : p + q ≤ 100) (amounts : List Nat) :
    (amounts.map (fun a => mulFloor p a)).sum
      + (amounts.map (fun a => mulFloor q a)).sum
      + (amounts.map (fun a => a - mulFloor p a - mulFloor q a)).sum
      = amounts.sum := by
  induction amounts with
  | nil => simp
  | cons a l ih =>
    have hfee := mulFloor_add_le p q a hpq
    simp only [List.map_cons, List.sum_cons]
    omega

theorem foldl_satAdd_eq (m : Nat) (l : List Nat) :
    ∀ acc, acc ≤ m → l.foldl (satAdd m) acc = min (acc + l.sum) m := by
  induction l with
  | nil =>
    intro acc h
    simp only [List.foldl_nil, List.sum_nil, Nat.add_zero]
    omega
  | cons a l ih =>
    intro acc h
    rw [List.foldl_cons, ih (satAdd m acc a) (by unfold satAdd; omega)]
    unfold satAdd
    simp only [List.sum_cons]
    omega

/-- The saturating running sum is the true sum clamped at the maximum. -/
theorem satSum_eq_min (m : Nat) (l : List Nat) : satSum m l = min l.sum m := by
  unfold satSum
  rw [foldl_satAdd_eq m l 0 (Nat.zero_le m)]
  omega

theorem payout_foldl (cfg : Config) (e : EscrowInfo) (amounts : List Nat) :
    ∀ r c outs, r ≤ cfg.maxBalance → c ≤ cfg.maxBalance →
    amounts.foldl (payoutStep cfg e) (r, c, outs) =
      (min (r + (amounts.map (fun a => mulFloor e.reputationOracleStake a)).sum) cfg.maxBalance,
       min (c + (amounts.map (fun a => mulFloor e.recordingOracleStake a)).sum) cfg.maxBalance,
       outs ++ amounts.map (fun a =>
         a - mulFloor e.reputationOracleStake a - mulFloor e.recordingOracleStake a)) := by
  induction amounts with
  | nil =>
    intro r c outs hr hc
    simp only [List.foldl_nil, List.map_nil, List.sum_nil, Nat.add_zero, List.append_nil]
    rw [Nat.min_eq_left hr, Nat.min_eq_left hc]
  | cons a l ih =>
    intro r c outs hr hc
    rw [List.foldl_cons]
    have hstep : payoutStep cfg e (r, c, outs) a =
        (satAdd cfg.maxBalance r (mulFloor e.reputationOracleStake a),
         satAdd cfg.maxBalance c (mulFloor e.recordingOracleStake a),
         outs ++ [a - mulFloor e.reputationOracleStake a -
           mulFloor e.recordingOracleStake a]) := rfl
    rw [hstep, ih _ _ _ (by unfold satAdd; omega) (by unfold satAdd; omega)]
    unfold satAdd
    simp only [List.map_cons, List.sum_cons, List.append_assoc, List.singleton_append,
      Prod.mk.injEq]
    refine ⟨by omega, by omega, trivial⟩

/-- Closed form of `finalize_payouts`: saturating fee totals and the mapped
net amounts. -/
theorem finalizePayouts_eq (cfg : Config) (e : EscrowInfo) (amounts : List Nat) :
    finalizePayouts cfg e amounts =
      (min ((amounts.map (fun a => mulFloor e.reputationOracleStake a)).sum) cfg.maxBalance,
       min ((amounts.map (fun a => mulFloor e.recordingOracleStake a)).sum) cfg.maxBalance,
       amounts.map (fun a =>
         a - mulFloor e.reputationOracleStake a - mulFloor e.recordingOracleStake a)) := by
  unfold finalizePayouts
  rw [payout_foldl cfg e amounts 0 0 [] (Nat.zero_le _) (Nat.zero_le _)]
  simp

/-- C4 (amended): `finalize_payouts` computes, independently for each
amount, the reputation fee `⌊rep_stake% ⬝ a⌋`, the recording fee
`⌊rec_stake% ⬝ a⌋`, and the net amount by saturating subtraction of both
fees; the returned fee totals are the *saturating* sums (clamped at the
balance maximum) of the per-entry fees. -/
theorem finalizePayouts_per_entry (cfg : Config) (e : EscrowInfo) (amounts : List Nat) :
    (finalizePayouts cfg e amounts).2.2 =
      amounts.map (fun a =>
        a - mulFloor e.reputationOracleStake a - mulFloor e.recordingOracleStake a) ∧
    (finalizePayouts cfg e amounts).1 =
      min ((amounts.map (fun a => mulFloor e.reputationOracleStake a)).sum) cfg.maxBalance ∧
    (finalizePayouts cfg e amounts).2.1 =
      min ((amounts.map (fun a => mulFloor e.recordingOracleStake a)).sum) cfg.maxBalance := by
  rw [finalizePayouts_eq]
  exact ⟨rfl, rfl, rfl⟩

/-- Counterexample to C4 as stated: the returned reputation fee total is
*not* always the plain sum of the per-entry fees — with the mock's `u64`
balance type, three amounts of `u64::MAX` at 50 percent stake saturate the
accumulator. -/
theorem finalizePayouts_totals_saturate :
    (finalizePayouts cfgMock escrowBig
        [2 ^ 64 - 1, 2 ^ 64 - 1, 2 ^ 64 - 1]).1 ≠
      (([2 ^ 64 - 1, 2 ^ 64 - 1, 2 ^ 64 - 1] : List Nat).map
        (fun a => mulFloor escrowBig.reputationOracleStake a)).sum := by
  decide

/-- C1 (amended): for a successful `bulk_payout` on an escrow whose stakes
sum to at most 100 percent, and whose requested amounts do not overflow the
balance type (so no saturation occurs), the fee split conserves value
exactly: `reputationFeeTotal + recordingFeeTotal + Σnet = Σamounts` (in
particular the deviation is 0 ≤ 2·len(amounts)). -/
theorem bulkPayout_conservation (cfg : Config) (now : Nat) (who : AccountId)
    (id : EscrowId) (recipients : List AccountId) (amounts : List Nat)
    (s : State) (e : EscrowInfo)
    (hesc : s.escrows id = some e)
    (hstake : e.reputationOracleStake + e.recordingOracleStake ≤ 100)
    (hnosat : amounts.sum ≤ cfg.maxBalance)
    (hok : (bulkPayout cfg now who id recipients amounts s).1 = .ok ()) :
    (finalizePayouts cfg e amounts).1 + (finalizePayouts cfg e amounts).2.1 +
      (finalizePayouts cfg e amounts).2.2.sum = amounts.sum := by
  rw [finalizePayouts_eq]
  have hrep : (amounts.map (fun a => mulFloor e.reputationOracleStake a)).sum ≤ amounts.sum :=
    sum_map_le_sum _ _ (fun a _ => mulFloor_le _ a (by omega))
  have hrec : (amounts.map (fun a => mulFloor e.recordingOracleStake a)).sum ≤ amounts.sum :=
    sum_map_le_sum _ _ (fun a _ => mulFloor_le _ a (by omega))
  have hcons := conservation_sum e.reputationOracleStake e.recordingOracleStake hstake amounts
  simp only []
  omega

/-- Witness for C1 (amended) at a concrete input: the funded scenario
escrow, paying out `[50, 50]`. -/
theorem bulkPayout_conservation_witness :
    stateA3.escrows 0 = some escrowA ∧
    escrowA.reputationOracleStake + escrowA.recordingOracleStake ≤ 100 ∧
    ([50, 50] : List Nat).sum ≤ cfgMock.maxBalance ∧
    (bulkPayout cfgMock 0 (.user 1) 0 [.user 5, .user 6] [50, 50] stateA3).1 = .ok () ∧
    (finalizePayouts cfgMock escrowA [50, 50]).1 +
      (finalizePayouts cfgMock escrowA [50, 50]).2.1 +
      (finalizePayouts cfgMock escrowA [50, 50]).2.2.sum = ([50, 50] : List Nat).sum :=
  ⟨rfl, by decide, by decide, rfl,
   bulkPayout_conservation cfgMock 0 (.user 1) 0 [.user 5, .user 6] [50, 50]
     stateA3 escrowA rfl (by decide) (by decide) rfl⟩

/-- Counterexample to C1 as stated: a `bulk_payout` that succeeds (both
oracles set to the custodial account, which holds `u64::MAX`) on an escrow
with stakes 50 + 50 ≤ 100, yet the fee split loses far more than
`2 · len(amounts)` minimal units to saturation. -/
theorem bulkPayout_conservation_counterexample :
    (bulkPayout cfgMock 0 (.user 1) 0 [.user 5, .user 6, .user 7]
        [2 ^ 64 - 1, 2 ^ 64 - 1, 2 ^ 64 - 1] sBig).1 = .ok () ∧
    escrowBig.reputationOracleStake + escrowBig.recordingOracleStake ≤ 100 ∧
    sBig.escrows 0 = some escrowBig ∧
    ((([2 ^ 64 - 1, 2 ^ 64 - 1, 2 ^ 64 - 1] : List Nat).sum) -
      ((finalizePayouts cfgMock escrowBig [2 ^ 64 - 1, 2 ^ 64 - 1, 2 ^ 64 - 1]).1 +
       (finalizePayouts cfgMock escrowBig [2 ^ 64 - 1, 2 ^ 64 - 1, 2 ^ 64 - 1]).2.1 +
       (finalizePayouts cfgMock escrowBig [2 ^ 64 - 1, 2 ^ 64 - 1, 2 ^ 64 - 1]).2.2.sum))
      > 2 * 3 := by
  refine ⟨rfl, by decide, rfl, by decide⟩

/-- C5 (Scenario A): on the escrow created with both stakes at 10 percent
and 100 units in its custodial account, `bulk_payout` to recipients 5 and 6
with amounts `[50, 50]` succeeds, pays 40 to each recipient and 10 to each
oracle, and sets the status to `Paid`. -/
theorem bulkPayout_scenario_a :
    (bulkPayout cfgMock 0 (.user 1) 0 [.user 5, .user 6] [50, 50] stateA3).1 = .ok () ∧
    ((bulkPayout cfgMock 0 (.user 1) 0 [.user 5, .user 6] [50, 50] stateA3).2).balances
      (.user 5) = 40 ∧
    ((bulkPayout cfgMock 0 (.user 1) 0 [.user 5, .user 6] [50, 50] stateA3).2).balances
      (.user 6) = 40 ∧
    ((bulkPayout cfgMock 0 (.user 1) 0 [.user 5, .user 6] [50, 50] stateA3).2).balances
      (.user 3) = 10 ∧
    ((bulkPayout cfgMock 0 (.user 1) 0 [.user 5, .user 6] [50, 50] stateA3).2).balances
      (.user 4) = 10 ∧
    (((bulkPayout cfgMock 0 (.user 1) 0 [.user 5, .user 6] [50, 50] stateA3).2).escrows
      0).map EscrowInfo.status = some .Paid :=
  ⟨rfl, rfl, rfl, rfl, rfl, rfl⟩

/-- Inserting accounts that are all already trusted leaves the
trusted-handler relation pointwise unchanged. -/
theorem doAddTrustedHandlers_noop (id : EscrowId) (handlers : List AccountId) :
    ∀ th : EscrowId → AccountId → Bool, (∀ a ∈ handlers, th id a = true) →
      ∀ i a, doAddTrustedHandlers id handlers th i a = th i a := by
  induction handlers with
  | nil => intro th _ i a; rfl
  | cons x hs ih =>
    intro th h i a
    have hx : th id x = true := h x (by simp)
    have hstep : doAddTrustedHandlers id (x :: hs) th =
        doAddTrustedHandlers id hs
          (fun i a => if i = id ∧ a = x then true else th i a) := rfl
    rw [hstep, ih _ ?_ i a]
    · by_cases hcond : i = id ∧ a = x
      · simp only [if_pos hcond]
        rw [hcond.1, hcond.2, hx]
      · simp only [if_neg hcond]
    · intro b hb
      by_cases hbx : b = x
      · simp [hbx]
      · simpa [hbx] using h b (by simp [hb])

/-- C6 (amended): calling `add_trusted_handlers` by a trusted caller with
principals that are all already trusted succeeds as long as the incremented
count stays within the handlers limit, and leaves the trusted-handler
relation pointwise unchanged — but the stored `HandlersCount` still grows
by the number of supplied principals (duplicates are double-counted). -/
theorem addTrustedHandlers_idempotent_on_set (cfg : Config) (who : AccountId)
    (id : EscrowId) (handlers : List AccountId) (s : State)
    (hwho : s.trustedHandlers id who = true)
    (hall : ∀ a ∈ handlers, s.trustedHandlers id a = true)
    (hlen : handlers.length < 2 ^ 32)
    (hlim : s.handlersCount id + handlers.length ≤ cfg.handlersLimit)
    (hlim32 : cfg.handlersLimit ≤ U32MAX) :
    (addTrustedHandlers cfg who id handlers s).1 = .ok () ∧
    (∀ i a, ((addTrustedHandlers cfg who id handlers s).2).trustedHandlers i a
      = s.trustedHandlers i a) ∧
    ((addTrustedHandlers cfg who id handlers s).2).handlersCount id
      = s.handlersCount id + handlers.length := by
  unfold addTrustedHandlers ensureTrusted
  have hmod : handlers.length % 2 ^ 32 = handlers.length := Nat.mod_eq_of_lt hlen
  have hcount : min (s.handlersCount id + handlers.length % 2 ^ 32) U32MAX
      = s.handlersCount id + handlers.length := by
    rw [hmod]; unfold U32MAX at *; omega
  simp only [hwho, if_true, hcount]
  rw [if_neg (by omega)]
  refine ⟨rfl, ?_, ?_⟩
  · intro i a
    exact doAddTrustedHandlers_noop id handlers s.trustedHandlers hall i a
  · simp [mapInsert]

/-- Witness for C6 (amended): account 1 re-adds itself to escrow 0. -/
theorem addTrustedHandlers_idempotent_on_set_witness :
    stateA2.trustedHandlers 0 (.user 1) = true ∧
    (addTrustedHandlers cfgMock (.user 1) 0 [.user 1] stateA2).1 = .ok () ∧
    (∀ i a, ((addTrustedHandlers cfgMock (.user 1) 0 [.user 1] stateA2).2).trustedHandlers i a
      = stateA2.trustedHandlers i a) ∧
    ((addTrustedHandlers cfgMock (.user 1) 0 [.user 1] stateA2).2).handlersCount 0
      = stateA2.handlersCount 0 + 1 :=
  ⟨rfl,
   (addTrustedHandlers_idempotent_on_set cfgMock (.user 1) 0 [.user 1] stateA2
     rfl (by intro a ha; simp at ha; subst ha; rfl) (by decide) (by decide) (by decide)).1,
   (addTrustedHandlers_idempotent_on_set cfgMock (.user 1) 0 [.user 1] stateA2
     rfl (by intro a ha; simp at ha; subst ha; rfl) (by decide) (by decide) (by decide)).2.1,
   (addTrustedHandlers_idempotent_on_set cfgMock (.user 1) 0 [.user 1] stateA2
     rfl (by intro a ha; simp at ha; subst ha; rfl) (by decide) (by decide) (by decide)).2.2⟩

/-- Counterexample to C6 as stated: adding the already-trusted account 1 to
escrow 0 succeeds and leaves the trusted set unchanged, yet the stored
handler count changes from 3 to 4. -/
theorem addTrustedHandlers_count_counterexample :
    (addTrustedHandlers cfgMock (.user 1) 0 [.user 1] stateA2).1 = .ok () ∧
    stateA2.handlersCount 0 = 3 ∧
    ((addTrustedHandlers cfgMock (.user 1) 0 [.user 1] stateA2).2).handlersCount 0 = 4 :=
  ⟨rfl, rfl, rfl⟩

/-- A successful ledger transfer changes no storage besides balances. -/
theorem transfer_ok_frame (cfg : Config) (src dst : AccountId) (v : Nat)
    (s s' : State) (h : transfer cfg src dst v s = .ok s') :
    SameStorage s s' := by
  unfold transfer at h
  split_ifs at h <;> cases h <;> exact ⟨rfl, rfl, rfl, rfl, rfl, rfl, rfl⟩

/-- Characterization of a successful ledger transfer: either it was a
no-op (zero value or self-transfer), or the value moved. -/
theorem transfer_ok_spec (cfg : Config) (src dst : AccountId) (v : Nat)
    (s s' : State) (h : transfer cfg src dst v s = .ok s') :
    ((v = 0 ∨ src = dst) ∧ s' = s) ∨
    (¬ (v = 0 ∨ src = dst) ∧ v ≤ s.balances src ∧
      s.balances dst + v ≤ cfg.maxBalance ∧
      s'.balances = fun a =>
        if a = src then s.balances src - v
        else if a = dst then s.balances dst + v
        else s.balances a) := by
  unfold transfer at h
  split_ifs at h with h1 h2 h3
  · injection h with h; subst h; exact Or.inl ⟨h1, rfl⟩
  · injection h with h; subst h; exact Or.inr ⟨h1, by omega, by omega, rfl⟩

/-- C8: a successful `abort` deletes the escrow record, the result pointer,
all trust entries and the handler count for the id; if the custodial
balance was positive it is refunded in full to the canceller (when the
canceller account is distinct from the custodial account; otherwise, and
when the balance was zero, no balance moves). -/
theorem abort_success_effects (cfg : Config) (who : AccountId) (id : EscrowId)
    (s : State) (e : EscrowInfo)
    (hesc : s.escrows id = some e)
    (hok : (abort cfg who id s).1 = .ok ()) :
    ((abort cfg who id s).2).escrows id = none ∧
    ((abort cfg who id s).2).finalResults id = none ∧
    (∀ a, ((abort cfg who id s).2).trustedHandlers id a = false) ∧
    ((abort cfg who id s).2).handlersCount id = 0 ∧
    (e.canceller ≠ e.account → 0 < s.balances e.account →
      ((abort cfg who id s).2).balances e.canceller
        = s.balances e.canceller + s.balances e.account ∧
      ((abort cfg who id s).2).balances e.account = 0) ∧
    ((e.canceller = e.account ∨ s.balances e.account = 0) →
      ∀ a, ((abort cfg who id s).2).balances a = s.balances a) := by
  unfold abort at hok ⊢
  simp only [hesc] at hok ⊢
  split at hok
  case h_1 heq => exact absurd hok (by simp)
  case h_2 w heq =>
    split at hok
    case isTrue => exact absurd hok (by simp)
    case isFalse hst =>
      split at hok
      case h_1 err heq1 => exact absurd hok (by simp)
      case h_2 s₁ heq1 =>
        split at hok
        case h_1 heq2 => exact absurd hok (by simp)
        case h_2 index heq2 =>
          refine ⟨by rw [if_neg hst]; simp [mapInsert],
            by rw [if_neg hst]; simp [mapInsert],
            by rw [if_neg hst]; simp,
            by rw [if_neg hst]; simp [mapInsert], ?_, ?_⟩
          · intro hne hbal
            rw [if_neg hst]
            rw [if_pos hbal] at heq1
            rcases transfer_ok_spec cfg e.account e.canceller (s.balances e.account) s s₁
                heq1 with ⟨hz, _⟩ | ⟨_, _, _, hb⟩
            · rcases hz with hz | hz
              · omega
              · exact absurd hz.symm hne
            · refine ⟨?_, ?_⟩ <;> simp only [hb]
              · simp [hne]
              · simp
          · intro hca a
            rw [if_neg hst]
            by_cases hbal : 0 < s.balances e.account
            · rw [if_pos hbal] at heq1
              rcases transfer_ok_spec cfg e.account e.canceller (s.balances e.account) s s₁
                  heq1 with ⟨_, hs⟩ | ⟨hno, _, _, _⟩
              · rw [hs]
              · rcases hca with hca | hca
                · exact absurd (Or.inr hca.symm) hno
                · omega
            · rw [if_neg hbal] at heq1
              cases heq1
              rfl

/-- Witness for C8 at a concrete input: aborting the funded scenario escrow
refunds the 100 units to account 1 and clears every record for id 0. -/
theorem abort_success_effects_witness :
    stateA3.escrows 0 = some escrowA ∧
    (abort cfgMock (.user 1) 0 stateA3).1 = .ok () ∧
    (((abort cfgMock (.user 1) 0 stateA3).2).escrows 0 = none ∧
     ((abort cfgMock (.user 1) 0 stateA3).2).finalResults 0 = none ∧
     (∀ a, ((abort cfgMock (.user 1) 0 stateA3).2).trustedHandlers 0 a = false) ∧
     ((abort cfgMock (.user 1) 0 stateA3).2).handlersCount 0 = 0 ∧
     (escrowA.canceller ≠ escrowA.account → 0 < stateA3.balances escrowA.account →
       ((abort cfgMock (.user 1) 0 stateA3).2).balances escrowA.canceller
         = stateA3.balances escrowA.canceller + stateA3.balances escrowA.account ∧
       ((abort cfgMock (.user 1) 0 stateA3).2).balances escrowA.account = 0) ∧
     ((escrowA.canceller = escrowA.account ∨ stateA3.balances escrowA.account = 0) →
       ∀ a, ((abort cfgMock (.user 1) 0 stateA3).2).balances a = stateA3.balances a)) :=
  ⟨rfl, rfl, abort_success_effects cfgMock (.user 1) 0 stateA3 escrowA rfl rfl⟩

theorem encLE_length (k n : Nat) : (encLE k n).length = k := by
  induction k generalizing n with
  | zero => rfl
  | succ k ih => simp [encLE, ih]

/-- Decoding inverts the fixed-width little-endian encoding. -/
theorem decLE_encLE (k n : Nat) (h : n < 256 ^ k) : decLE (encLE k n) = n := by
  induction k generalizing n with
  | zero =>
    have hn : n = 0 := by
      have : (256 : Nat) ^ 0 = 1 := pow_zero 256
      omega
    subst hn; rfl
  | succ k ih =>
    simp only [encLE, decLE]
    rw [ih (n / 256) ((Nat.div_lt_iff_lt_mul (by omega)).mpr (by rw [← pow_succ]; exact h))]
    omega

/-- The 32 account bytes are the 12-byte `"modl" ++ "escrowhp"` prefix, the
16 little-endian id bytes, and 4 zero bytes of padding. -/
theorem accountIdForBytes_expand (n : Nat) :
    accountIdForBytes n =
      ([109, 111, 100, 108] ++ [101, 115, 99, 114, 111, 119, 104, 112]) ++
        (encLE 16 n ++ [0, 0, 0, 0]) := by
  unfold accountIdForBytes
  rw [List.append_assoc, List.take_append_eq_append_take]
  have hlen : (([109, 111, 100, 108] : List Nat) ++
      ([101, 115, 99, 114, 111, 119, 104, 112] : List Nat)).length = 12 := rfl
  rw [List.take_of_length_le (by rw [hlen]; omega)]
  rfl

/-- C7: the custodial-account derivation of `account_id_for` is injective
on escrow ids — two distinct `u128` ids always derive distinct custodial
account bytes, so no two escrows ever share a custodial account. -/
theorem accountIdFor_injective (i j : EscrowId)
    (hi : i < 2 ^ 128) (hj : j < 2 ^ 128) (hne : i ≠ j) :
    accountIdForBytes i ≠ accountIdForBytes j := by
  intro heq
  apply hne
  rw [accountIdForBytes_expand, accountIdForBytes_expand] at heq
  have henc : encLE 16 i = encLE 16 j :=
    List.append_cancel_right (List.append_cancel_left heq)
  have h256 : (256 : Nat) ^ 16 = 2 ^ 128 := by norm_num
  have hdi := decLE_encLE 16 i (by rw [h256]; exact hi)
  have hdj := decLE_encLE 16 j (by rw [h256]; exact hj)
  rw [← hdi, ← hdj, henc]

/-- Witness for C7 at a concrete input: ids 0 and 1 derive distinct
custodial accounts. -/
theorem accountIdFor_injective_witness :
    (0 : EscrowId) < 2 ^ 128 ∧ (1 : EscrowId) < 2 ^ 128 ∧
    accountIdForBytes 0 ≠ accountIdForBytes 1 :=
  ⟨by norm_num, by norm_num,
   accountIdFor_injective 0 1 (by norm_num) (by norm_num) (by decide)⟩

theorem statusLe_refl (st : EscrowStatus) : statusLe st st = true := by
  cases st <;> rfl

/-- A step that does not change the escrow table never moves a status. -/
theorem stepStatusOk_of_escrows_eq (s s' : State) (h : s'.escrows = s.escrows) :
    StepStatusOk s s' := by
  intro id e e' he he'
  rw [h, he] at he'
  injection he' with he'
  subst he'
  exact statusLe_refl _

theorem mapInsert_self {α β : Type} [DecidableEq α] (f : α → β) (k : α) (v : β) :
    mapInsert f k v k = v := by
  simp [mapInsert]

theorem mapInsert_ne_key {α β : Type} [DecidableEq α] (f : α → β) (k x : α)
    (v : β) (h : x ≠ k) : mapInsert f k v x = f x := by
  simp [mapInsert, h]

/-- `do_add_trusted_handlers` only touches the given escrow id. -/
theorem doAddTrustedHandlers_ne (id : EscrowId) (handlers : List AccountId) :
    ∀ (th : EscrowId → AccountId → Bool) (i : EscrowId) (a : AccountId), i ≠ id →
      doAddTrustedHandlers id handlers th i a = th i a := by
  induction handlers with
  | nil => intro th i a _; rfl
  | cons x hs ih =>
    intro th i a h
    have hstep : doAddTrustedHandlers id (x :: hs) th =
        doAddTrustedHandlers id hs
          (fun i a => if i = id ∧ a = x then true else th i a) := rfl
    rw [hstep, ih _ i a h]
    exact if_neg (by rintro ⟨h1, _⟩; exact h h1)

theorem ensureTrusted_ok (s : State) (who : AccountId) (id : EscrowId)
    (w : AccountId) (h : ensureTrusted s who id = .ok w) :
    s.trustedHandlers id who = true := by
  unfold ensureTrusted at h
  split_ifs at h with h1
  exact h1

theorem getOpenEscrow_ok (now : Nat) (id : EscrowId) (s : State) (e : EscrowInfo)
    (h : getOpenEscrow now id s = .ok e) :
    s.escrows id = some e ∧ (e.status = .Pending ∨ e.status = .Partial) ∧
      now < e.endTime := by
  unfold getOpenEscrow at h
  split at h
  case h_1 => exact absurd h (by simp)
  case h_2 w heq =>
    split_ifs at h with h1 h2
    injection h with h
    subst h
    exact ⟨heq, h2, by omega⟩

theorem sameStorage_rfl (s : State) : SameStorage s s :=
  ⟨rfl, rfl, rfl, rfl, rfl, rfl, rfl⟩

theorem sameStorage_trans {s s₁ s₂ : State} (h1 : SameStorage s s₁)
    (h2 : SameStorage s₁ s₂) : SameStorage s s₂ := by
  obtain ⟨a1, b1, c1, d1, e1, f1, g1⟩ := h1
  obtain ⟨a2, b2, c2, d2, e2, f2, g2⟩ := h2
  exact ⟨a2.trans a1, b2.trans b1, c2.trans c1, d2.trans d1, e2.trans e1,
    f2.trans f1, g2.trans g1⟩

/-- A successful bulk-transfer loop changes no storage besides balances. -/
theorem transferSeq_ok_frame (cfg : Config) (src : AccountId) :
    ∀ (l : List (AccountId × Nat)) (s s' : State),
      transferSeq cfg src l s = .ok s' → SameStorage s s' := by
  intro l
  induction l with
  | nil =>
    intro s s' h
    injection h with h
    subst h
    exact sameStorage_rfl s
  | cons p rest ih =>
    intro s s' h
    obtain ⟨dst, v⟩ := p
    unfold transferSeq at h
    split at h
    case h_1 => exact absurd h (by simp)
    case h_2 s₁ heq =>
      exact sameStorage_trans (transfer_ok_frame cfg src dst v s s₁ heq) (ih s₁ s' h)

/-- A successful `do_transfer_bulk` changes no storage besides balances. -/
theorem doTransferBulk_ok_frame (cfg : Config) (src : AccountId)
    (tos : List AccountId) (values : List Nat) (s s' : State)
    (h : doTransferBulk cfg src tos values s = .ok s') : SameStorage s s' := by
  unfold doTransferBulk at h
  split_ifs at h
  exact transferSeq_ok_frame cfg src (tos.zip values) s s' h

theorem genesis_inv (balances : AccountId → Nat) :
    StateInv (genesisState balances) :=
  ⟨fun _ _ => rfl, fun _ _ _ => rfl⟩

/-- The invariant only concerns storage, so it is carried across
balance-only changes. -/
theorem stateInv_of_sameStorage {s s' : State} (h : SameStorage s s')
    (hinv : StateInv s) : StateInv s' := by
  obtain ⟨hc, -, he, -, -, ht, -⟩ := h
  refine ⟨?_, ?_⟩
  · intro id hle
    rw [he]
    rw [hc] at hle
    exact hinv.1 id hle
  · intro id a hid
    rw [he] at hid
    rw [ht]
    exact hinv.2 id a hid

theorem createFactory_preserves (who : AccountId) (s : State) (hinv : StateInv s) :
    StateInv (createFactory who s).2 ∧ StepStatusOk s (createFactory who s).2 :=
  ⟨hinv, stepStatusOk_of_escrows_eq s _ rfl⟩

theorem noteIntermediateResults_state (cfg : Config) (now : Nat) (who : AccountId)
    (id : EscrowId) (url hash : List Nat) (s : State) :
    (noteIntermediateResults cfg now who id url hash s).2 = s := by
  unfold noteIntermediateResults
  repeat' split
  all_goals rfl

theorem noteIntermediateResults_preserves (cfg : Config) (now : Nat)
    (who : AccountId) (id : EscrowId) (url hash : List Nat) (s : State)
    (hinv : StateInv s) :
    StateInv (noteIntermediateResults cfg now who id url hash s).2 ∧
    StepStatusOk s (noteIntermediateResults cfg now who id url hash s).2 := by
  rw [noteIntermediateResults_state]
  exact ⟨hinv, stepStatusOk_of_escrows_eq s s rfl⟩

theorem storeFinalResults_preserves (cfg : Config) (now : Nat) (who : AccountId)
    (id : EscrowId) (url hash : List Nat) (s : State) (hinv : StateInv s) :
    StateInv (storeFinalResults cfg now who id url hash s).2 ∧
    StepStatusOk s (storeFinalResults cfg now who id url hash s).2 := by
  unfold storeFinalResults
  repeat' split
  all_goals exact ⟨hinv, stepStatusOk_of_escrows_eq s _ rfl⟩

/-- Shared argument for the operations that re-insert an existing record
with a forward-moved status, possibly after balance-only changes. -/
theorem insert_status_preserves (s s₁ : State) (id : EscrowId)
    (escrow newRec : EscrowInfo) (hss : SameStorage s s₁)
    (heq : s.escrows id = some escrow) (hinv : StateInv s)
    (hrel : statusLe escrow.status newRec.status = true)
    (s' : State)
    (hs' : s'.counter = s₁.counter)
    (hesc' : s'.escrows = mapInsert s₁.escrows id (some newRec))
    (htr' : s'.trustedHandlers = s₁.trustedHandlers) :
    StateInv s' ∧ StepStatusOk s s' := by
  obtain ⟨hc, -, he, -, -, ht, -⟩ := hss
  have hlt : id < s.counter := by
    rcases Nat.lt_or_ge id s.counter with hl | hg
    · exact hl
    · rw [hinv.1 id hg] at heq
      exact absurd heq (by simp)
  refine ⟨⟨?_, ?_⟩, ?_⟩
  · intro id' hle
    rw [hs', hc] at hle
    have hne : id' ≠ id := ne_of_gt (lt_of_lt_of_le hlt hle)
    rw [hesc', mapInsert_ne_key _ _ _ _ hne, he]
    exact hinv.1 id' hle
  · intro id' a h
    rw [hesc'] at h
    rw [htr', ht]
    by_cases hid : id' = id
    · subst hid
      rw [mapInsert_self] at h
      exact absurd h (by simp)
    · rw [mapInsert_ne_key _ _ _ _ hid, he] at h
      exact hinv.2 id' a h
  · intro id' e e' hee hee'
    rw [hesc'] at hee'
    by_cases hid : id' = id
    · subst hid
      rw [mapInsert_self] at hee'
      injection hee' with hee'
      subst hee'
      rw [heq] at hee
      injection hee with hee
      subst hee
      exact hrel
    · rw [mapInsert_ne_key _ _ _ _ hid, he] at hee'
      rw [hee] at hee'
      injection hee' with hee'
      subst hee'
      exact statusLe_refl _

theorem cancel_preserves (cfg : Config) (who : AccountId) (id : EscrowId)
    (s : State) (hinv : StateInv s) :
    StateInv (cancel cfg who id s).2 ∧ StepStatusOk s (cancel cfg who id s).2 := by
  unfold cancel
  dsimp only
  split
  case h_1 => exact ⟨hinv, stepStatusOk_of_escrows_eq s s rfl⟩
  case h_2 escrow heq =>
    split
    case h_1 => exact ⟨hinv, stepStatusOk_of_escrows_eq s s rfl⟩
    case h_2 w heqt =>
      split
      case isFalse => exact ⟨hinv, stepStatusOk_of_escrows_eq s s rfl⟩
      case isTrue hstatus =>
        split
        case isTrue => exact ⟨hinv, stepStatusOk_of_escrows_eq s s rfl⟩
        case isFalse hbal =>
          split
          case h_1 => exact ⟨hinv, stepStatusOk_of_escrows_eq s s rfl⟩
          case h_2 s₁ heq1 =>
            exact insert_status_preserves s s₁ id escrow _
              (transfer_ok_frame _ _ _ _ _ _ heq1) heq hinv
              (by rcases hstatus with h | h <;> rw [h] <;> rfl)
              _ rfl rfl rfl

theorem complete_preserves (now : Nat) (who : AccountId) (id : EscrowId)
    (s : State) (hinv : StateInv s) :
    StateInv (complete now who id s).2 ∧ StepStatusOk s (complete now who id s).2 := by
  unfold complete
  split
  case h_1 => exact ⟨hinv, stepStatusOk_of_escrows_eq s s rfl⟩
  case h_2 escrow heq =>
    split
    case h_1 => exact ⟨hinv, stepStatusOk_of_escrows_eq s s rfl⟩
    case h_2 w heqt =>
      split
      case isTrue => exact ⟨hinv, stepStatusOk_of_escrows_eq s s rfl⟩
      case isFalse =>
        split
        case isTrue => exact ⟨hinv, stepStatusOk_of_escrows_eq s s rfl⟩
        case isFalse hpaid =>
          have hp : escrow.status = .Paid := not_not.mp hpaid
          exact insert_status_preserves s s id escrow _
            (sameStorage_rfl s) heq hinv (by rw [hp]; rfl) _ rfl rfl rfl

theorem addTrustedHandlers_preserves (cfg : Config) (who : AccountId)
    (id : EscrowId) (handlers : List AccountId) (s : State) (hinv : StateInv s) :
    StateInv (addTrustedHandlers cfg who id handlers s).2 ∧
    StepStatusOk s (addTrustedHandlers cfg who id handlers s).2 := by
  unfold addTrustedHandlers
  dsimp only
  split
  case h_1 => exact ⟨hinv, stepStatusOk_of_escrows_eq s s rfl⟩
  case h_2 w heq =>
    split
    case isTrue => exact ⟨hinv, stepStatusOk_of_escrows_eq s s rfl⟩
    case isFalse hlim =>
      have htr := ensureTrusted_ok s who id w heq
      have hesc : s.escrows id ≠ none := by
        intro hn
        rw [hinv.2 id who hn] at htr
        exact absurd htr (by simp)
      dsimp only
      refine ⟨⟨hinv.1, ?_⟩, stepStatusOk_of_escrows_eq s _ rfl⟩
      intro id' a h
      dsimp only at h ⊢
      have hne : id' ≠ id := by
        intro hEq
        exact hesc (hEq ▸ h)
      rw [doAddTrustedHandlers_ne id handlers s.trustedHandlers id' a hne]
      exact hinv.2 id' a h

theorem abort_preserves (cfg : Config) (who : AccountId) (id : EscrowId)
    (s : State) (hinv : StateInv s) :
    StateInv (abort cfg who id s).2 ∧ StepStatusOk s (abort cfg who id s).2 := by
  unfold abort
  dsimp only
  split
  case h_1 => exact ⟨hinv, stepStatusOk_of_escrows_eq s s rfl⟩
  case h_2 escrow heq =>
    split
    case h_1 => exact ⟨hinv, stepStatusOk_of_escrows_eq s s rfl⟩
    case h_2 w heqt =>
      split
      case isTrue => exact ⟨hinv, stepStatusOk_of_escrows_eq s s rfl⟩
      case isFalse hst =>
        split
        case h_1 => exact ⟨hinv, stepStatusOk_of_escrows_eq s s rfl⟩
        case h_2 s₁ heq1 =>
          have hss : SameStorage s s₁ := by
            by_cases hbal : 0 < s.balances escrow.account
            · rw [if_pos hbal] at heq1
              exact transfer_ok_frame _ _ _ _ _ _ heq1
            · rw [if_neg hbal] at heq1
              injection heq1 with heq1
              subst heq1
              exact sameStorage_rfl s
          obtain ⟨hc, -, he, -, -, ht, -⟩ := hss
          split
          case h_1 heq2 =>
            refine ⟨⟨?_, ?_⟩, ?_⟩
            · intro id' hle
              dsimp only at hle ⊢
              rw [hc] at hle
              by_cases hid : id' = id
              · subst hid; rw [mapInsert_self]
              · rw [mapInsert_ne_key _ _ _ _ hid, he]
                exact hinv.1 id' hle
            · intro id' a h
              dsimp only at h ⊢
              by_cases hid : id' = id
              · simp [hid]
              · rw [if_neg hid, ht]
                rw [mapInsert_ne_key _ _ _ _ hid, he] at h
                exact hinv.2 id' a h
            · intro id' e e' hee hee'
              dsimp only at hee'
              by_cases hid : id' = id
              · subst hid
                rw [mapInsert_self] at hee'
                exact absurd hee' (by simp)
              · rw [mapInsert_ne_key _ _ _ _ hid, he] at hee'
                rw [hee] at hee'
                injection hee' with hee'
                subst hee'
                exact statusLe_refl _
          case h_2 index heq2 =>
            refine ⟨⟨?_, ?_⟩, ?_⟩
            · intro id' hle
              dsimp only at hle ⊢
              rw [hc] at hle
              by_cases hid : id' = id
              · subst hid; rw [mapInsert_self]
              · rw [mapInsert_ne_key _ _ _ _ hid, he]
                exact hinv.1 id' hle
            · intro id' a h
              dsimp only at h ⊢
              by_cases hid : id' = id
              · simp [hid]
              · rw [if_neg hid, ht]
                rw [mapInsert_ne_key _ _ _ _ hid, he] at h
                exact hinv.2 id' a h
            · intro id' e e' hee hee'
              dsimp only at hee'
              by_cases hid : id' = id
              · subst hid
                rw [mapInsert_self] at hee'
                exact absurd hee' (by simp)
              · rw [mapInsert_ne_key _ _ _ _ hid, he] at hee'
                rw [hee] at hee'
                injection hee' with hee'
                subst hee'
                exact statusLe_refl _

theorem bulkPayout_preserves (cfg : Config) (now : Nat) (who : AccountId)
    (id : EscrowId) (recipients : List AccountId) (amounts : List Nat)
    (s : State) (hinv : StateInv s) :
    StateInv (bulkPayout cfg now who id recipients amounts s).2 ∧
    StepStatusOk s (bulkPayout cfg now who id recipients amounts s).2 := by
  unfold bulkPayout withTransactionResult
  split
  case h_2 err heq => exact ⟨hinv, stepStatusOk_of_escrows_eq s s rfl⟩
  case h_1 s₄ heq =>
    unfold bulkPayoutInner at heq
    dsimp only at heq
    split at heq
    case h_1 => exact absurd heq (by simp)
    case h_2 escrow heqO =>
      split at heq
      case h_1 => exact absurd heq (by simp)
      case h_2 w heqT =>
        split at heq
        case isTrue => exact absurd heq (by simp)
        case isFalse hbal0 =>
          split at heq
          case isTrue => exact absurd heq (by simp)
          case isFalse hfunds =>
            split at heq
            case h_1 => exact absurd heq (by simp)
            case h_2 s₁ hT1 =>
              split at heq
              case h_1 => exact absurd heq (by simp)
              case h_2 s₂ hT2 =>
                split at heq
                case h_1 => exact absurd heq (by simp)
                case h_2 s₃ hT3 =>
                  injection heq with heq
                  subst heq
                  have hss : SameStorage s s₃ :=
                    sameStorage_trans (transfer_ok_frame _ _ _ _ _ _ hT1)
                      (sameStorage_trans (transfer_ok_frame _ _ _ _ _ _ hT2)
                        (doTransferBulk_ok_frame _ _ _ _ _ _ hT3))
                  have hopen := getOpenEscrow_ok now id s escrow heqO
                  refine insert_status_preserves s s₃ id escrow _ hss hopen.1 hinv
                    ?_ _ rfl rfl rfl
                  have hst1 : (if escrow.status = EscrowStatus.Pending
                      then EscrowStatus.Partial else escrow.status)
                      = EscrowStatus.Partial := by
                    rcases hopen.2.1 with hp | hp <;> rw [hp] <;> rfl
                  dsimp only
                  rw [hst1]
                  rcases hopen.2.1 with hp | hp <;> rw [hp] <;> split <;> rfl

theorem create_preserves (cfg : Config) (now : Nat) (who : AccountId)
    (url hash : List Nat) (fid : FactoryId) (repO recO : AccountId)
    (repS recS : Nat) (s : State) (hinv : StateInv s) :
    StateInv (create cfg now who url hash fid repO recO repS recS s).2 ∧
    StepStatusOk s (create cfg now who url hash fid repO recO repS recS s).2 := by
  unfold create
  dsimp only
  split
  case isTrue => exact ⟨hinv, stepStatusOk_of_escrows_eq s s rfl⟩
  case isFalse =>
    split
    case isTrue => exact ⟨hinv, stepStatusOk_of_escrows_eq s s rfl⟩
    case isFalse =>
      split
      case h_1 => exact ⟨hinv, stepStatusOk_of_escrows_eq s s rfl⟩
      case h_2 lst heq =>
        split
        case isTrue => exact ⟨hinv, stepStatusOk_of_escrows_eq s s rfl⟩
        case isFalse =>
          split
          case isTrue => exact ⟨hinv, stepStatusOk_of_escrows_eq s s rfl⟩
          case isFalse =>
            refine ⟨⟨?_, ?_⟩, ?_⟩
            · intro id' hle
              dsimp only at hle ⊢
              have hne : id' ≠ s.counter := by omega
              rw [mapInsert_ne_key _ _ _ _ hne]
              exact hinv.1 id' (by omega)
            · intro id' a h
              dsimp only at h ⊢
              by_cases hid : id' = s.counter
              · subst hid
                rw [mapInsert_self] at h
                exact absurd h (by simp)
              · rw [mapInsert_ne_key _ _ _ _ hid] at h
                rw [doAddTrustedHandlers_ne _ _ _ id' a hid]
                exact hinv.2 id' a h
            · intro id' e e' he he'
              dsimp only at he'
              have hlt : id' < s.counter := by
                rcases Nat.lt_or_ge id' s.counter with hl | hg
                · exact hl
                · rw [hinv.1 id' hg] at he
                  exact absurd he (by simp)
              have hne : id' ≠ s.counter := Nat.ne_of_lt hlt
              rw [mapInsert_ne_key _ _ _ _ hne] at he'
              rw [he] at he'
              injection he' with he'
              subst he'
              exact statusLe_refl _


theorem applyOp_preserves (cfg : Config) (now : Nat) (op : Op) (s : State)
    (hinv : StateInv s) :
    StateInv (applyOp cfg now op s).2 ∧ StepStatusOk s (applyOp cfg now op s).2 := by
  cases op with
  | createFactory who => exact createFactory_preserves who s hinv
  | create who url hash fid repO recO repS recS =>
    exact create_preserves cfg now who url hash fid repO recO repS recS s hinv
  | addTrustedHandlers who id handlers =>
    exact addTrustedHandlers_preserves cfg who id handlers s hinv
  | abort who id => exact abort_preserves cfg who id s hinv
  | cancel who id => exact cancel_preserves cfg who id s hinv
  | complete who id => exact complete_preserves now who id s hinv
  | noteIntermediateResults who id url hash =>
    exact noteIntermediateResults_preserves cfg now who id url hash s hinv
  | storeFinalResults who id url hash =>
    exact storeFinalResults_preserves cfg now who id url hash s hinv
  | bulkPayout who id recipients amounts =>
    exact bulkPayout_preserves cfg now who id recipients amounts s hinv
  | ledgerTransfer who dst v =>
    simp only [applyOp]
    split
    case h_1 s' heq =>
      have hss := transfer_ok_frame cfg who dst v s s' heq
      exact ⟨stateInv_of_sameStorage hss hinv,
        stepStatusOk_of_escrows_eq s s' hss.2.2.1⟩
    case h_2 err heq => exact ⟨hinv, stepStatusOk_of_escrows_eq s s rfl⟩

/-- Every reachable state satisfies the pallet invariant. -/
theorem reachable_inv (cfg : Config) (s : State) (h : Reachable cfg s) :
    StateInv s := by
  induction h with
  | genesis balances => exact genesis_inv balances
  | step now op hr ih => exact (applyOp_preserves cfg now op _ ih).1

/-- C3: for every reachable state and every operation of the pallet, an
escrow record present before and after the operation only moves its status
forward along the graph `Pending → Partial → Paid → Complete`,
`Pending/Partial → Cancelled`; no operation moves a status backward. -/
theorem status_monotonic (cfg : Config) (s : State) (hreach : Reachable cfg s)
    (now : Nat) (op : Op) (id : EscrowId) (e e' : EscrowInfo)
    (h1 : s.escrows id = some e)
    (h2 : ((applyOp cfg now op s).2).escrows id = some e') :
    statusLe e.status e'.status = true :=
  (applyOp_preserves cfg now op s (reachable_inv cfg s hreach)).2 id e e' h1 h2

/-- The funded scenario state is reachable from genesis. -/
theorem reachable_stateA3 : Reachable cfgMock stateA3 :=
  Reachable.step 0 (.ledgerTransfer (.user 1) (accountIdFor 0) 100)
    (Reachable.step 0 (.create (.user 1) [1] [2] 0 (.user 3) (.user 4) 10 10)
      (Reachable.step 0 (.createFactory (.user 1))
        (Reachable.genesis genesisBalancesA)))

/-- Witness for C3 at a concrete input: paying out the whole balance moves
escrow 0 from `Pending` to `Paid`, a forward move. -/
theorem status_monotonic_witness :
    Reachable cfgMock stateA3 ∧
    stateA3.escrows 0 = some escrowA ∧
    ((applyOp cfgMock 0 (.bulkPayout (.user 1) 0 [.user 5, .user 6] [50, 50])
        stateA3).2).escrows 0 = some { escrowA with status := .Paid } ∧
    statusLe escrowA.status EscrowStatus.Paid = true :=
  ⟨reachable_stateA3, rfl, rfl,
   status_monotonic cfgMock stateA3 reachable_stateA3 0
     (.bulkPayout (.user 1) 0 [.user 5, .user 6] [50, 50]) 0 escrowA
     { escrowA with status := .Paid } rfl rfl⟩

/-- C10: in every reachable state, an escrow id without a stored record has
no trusted handlers; consequently the operations that check trust before
loading the record — `add_trusted_handlers`, and (once their string-length
checks pass) `note_intermediate_results` and `store_final_results` — fail
on such an id with `NonTrustedAccount`, never with `MissingEscrow`, and
leave the state unchanged. -/
theorem missing_escrow_has_no_handlers (cfg : Config) (s : State)
    (hreach : Reachable cfg s) (id : EscrowId)
    (hnone : s.escrows id = none) :
    (∀ a, s.trustedHandlers id a = false) ∧
    (∀ who handlers, addTrustedHandlers cfg who id handlers s
      = (.error .NonTrustedAccount, s)) ∧
    (∀ now who url hash, url.length ≤ cfg.stringLimit →
      hash.length ≤ cfg.stringLimit →
      noteIntermediateResults cfg now who id url hash s
        = (.error .NonTrustedAccount, s)) ∧
    (∀ now who url hash, url.length ≤ cfg.stringLimit →
      hash.length ≤ cfg.stringLimit →
      storeFinalResults cfg now who id url hash s
        = (.error .NonTrustedAccount, s)) := by
  have hinv := reachable_inv cfg s hreach
  have hfalse : ∀ a, s.trustedHandlers id a = false := fun a => hinv.2 id a hnone
  refine ⟨hfalse, ?_, ?_, ?_⟩
  · intro who handlers
    unfold addTrustedHandlers ensureTrusted
    simp [hfalse who]
  · intro now who url hash hu hh
    unfold noteIntermediateResults ensureTrusted
    rw [if_neg (by omega), if_neg (by omega)]
    simp [hfalse who]
  · intro now who url hash hu hh
    unfold storeFinalResults ensureTrusted
    rw [if_neg (by omega), if_neg (by omega)]
    simp [hfalse who]

/-- Witness for C10 at a concrete input: at genesis no escrow exists at id
0, so account 9 is not trusted and the trust-gated calls fail with
`NonTrustedAccount`. -/
theorem missing_escrow_has_no_handlers_witness :
    Reachable cfgMock (genesisState genesisBalancesA) ∧
    (genesisState genesisBalancesA).escrows 0 = none ∧
    addTrustedHandlers cfgMock (.user 9) 0 [.user 2] (genesisState genesisBalancesA)
      = (.error .NonTrustedAccount, genesisState genesisBalancesA) ∧
    noteIntermediateResults cfgMock 0 (.user 9) 0 [1] [2]
        (genesisState genesisBalancesA)
      = (.error .NonTrustedAccount, genesisState genesisBalancesA) ∧
    storeFinalResults cfgMock 0 (.user 9) 0 [1] [2]
        (genesisState genesisBalancesA)
      = (.error .NonTrustedAccount, genesisState genesisBalancesA) :=
  ⟨Reachable.genesis genesisBalancesA, rfl,
   (missing_escrow_has_no_handlers cfgMock (genesisState genesisBalancesA)
     (Reachable.genesis genesisBalancesA) 0 rfl).2.1 (.user 9) [.user 2],
   (missing_escrow_has_no_handlers cfgMock (genesisState genesisBalancesA)
     (Reachable.genesis genesisBalancesA) 0 rfl).2.2.1 0 (.user 9) [1] [2]
     (by decide) (by decide),
   (missing_escrow_has_no_handlers cfgMock (genesisState genesisBalancesA)
     (Reachable.genesis genesisBalancesA) 0 rfl).2.2.2 0 (.user 9) [1] [2]
     (by decide) (by decide)⟩

end HmtEscrow
